import Mathlib

set_option maxHeartbeats 1000000

/-!
Verification development for the content generation and refinement engine of
the AI-assisted document authoring platform.  The repository ships the
frontend sources (router, login page, axios api client, redux slices) and the
design documentation of the FastAPI backend; the backend service code itself
(generation, refinement, render-tree/export assembly) is not part of the
source tree, so those components are modelled from the specification, as
close to its words as possible, and the frontend components are embedded
directly from the TypeScript sources.
-/

namespace DocGen

/-! ## Lines and bullet markers

The export loop of the design document (src/unnamed/part_000, Word export
section loop) splits a section body on newline characters and treats a line
starting with a dash and a space as a bullet item whose text is the line with
the two-character marker removed.  These helpers mirror that, working on the
character list of the string. -/

/-- Split a character stream into lines at newline characters; cur holds the
characters of the current line in reverse order. -/
def splitCharsAux (cur : List Char) : List Char → List String
  | [] => [String.mk cur.reverse]
  | c :: cs =>
    if c = '\n' then String.mk cur.reverse :: splitCharsAux [] cs
    else splitCharsAux (c :: cur) cs

/-- Split a string body into its lines, one split per newline character. -/
def splitLines (s : String) : List String := splitCharsAux [] s.data

/-- A line carries the bullet marker when it starts with a dash followed by a
space, mirroring the startswith check of the export loop. -/
def isBulletLine (l : String) : Bool :=
  match l.data with
  | '-' :: ' ' :: _ => true
  | _ => false

/-- The text of a bullet item: the line with its two-character marker
removed, mirroring the slice in the export loop. -/
def bulletText (l : String) : String := String.mk (l.data.drop 2)

/-- A line is blank when it has no characters. -/
def lineEmpty (l : String) : Bool := l.data.isEmpty

/-- Join lines back into one string with newline separators. -/
def joinLines : List String → String
  | [] => ""
  | [l] => l
  | l :: rest => l ++ "\n" ++ joinLines rest

/-! ## Render tree (spec section 3, RenderNode; spec 4.5, Render Tree
Builder).  The backend export service is not under src/, so the builder is
modelled from the specification, following the per-line bullet handling shown
in the design document's Word export loop. -/

/-- Content kind of a section (spec section 3, SectionSpec). -/
inductive ContentKind
  | text
  | bullet_list
  | slide
deriving DecidableEq, Repr

/-- Node kinds of the render tree (spec section 3, RenderNode).  The section
kind is written sectionK because section is a Lean keyword. -/
inductive NodeKind
  | document
  | sectionK
  | paragraph
  | bulletList
  | bulletItem
  | slide
deriving DecidableEq, Repr

/-- A render tree element: a kind, an optional text payload and an ordered
sequence of children (spec section 3, RenderNode). -/
inductive RenderNode
  | node (kind : NodeKind) (payload : Option String) (children : List RenderNode)

/-- The bullet-item leaf produced by a bullet-marked line. -/
def bulletItemNode (l : String) : RenderNode :=
  RenderNode.node .bulletItem (some (bulletText l)) []

/-- The paragraph leaf carrying the given text. -/
def paragraphNode (t : String) : RenderNode :=
  RenderNode.node .paragraph (some t) []

/-- Wrap a pending run of bullet items into one bullet-list node; an empty
run produces nothing. -/
def flushBullets (items : List RenderNode) : List RenderNode :=
  if items.isEmpty then [] else [RenderNode.node .bulletList none items]

/-- Modelled from the spec: the per-line body mapping of the Render Tree
Builder (spec 4.5) for bullet_list content.  Bullet-marked lines become
bullet-item nodes, consecutive bullet items are grouped under one bullet-list
node, every other non-empty line becomes a paragraph node, blank lines only
separate runs.  The accumulator items holds the current run of bullet
items. -/
def buildAux (items : List RenderNode) : List String → List RenderNode
  | [] => flushBullets items
  | l :: rest =>
    if isBulletLine l then buildAux (items ++ [bulletItemNode l]) rest
    else if lineEmpty l then flushBullets items ++ buildAux [] rest
    else flushBullets items ++ (paragraphNode l :: buildAux [] rest)

/-- Build the node list for a bullet_list body from its lines. -/
def buildLines (lines : List String) : List RenderNode := buildAux [] lines

/-- Wrap a pending run of paragraph lines into one paragraph node split on
blank-line boundaries; an empty run produces nothing. -/
def flushPara (para : List String) : List RenderNode :=
  if para.isEmpty then [] else [paragraphNode (joinLines para)]

/-- Modelled from the spec: the body mapping of the Render Tree Builder
(spec 4.5) for text content.  Paragraph nodes are split on blank-line
boundaries (consecutive non-blank plain lines form one paragraph), while
bullet-marked lines still become bullet-item nodes grouped under a
bullet-list node.  para holds the lines of the open paragraph, items the
current run of bullet items; at most one of the two is ever non-empty. -/
def buildTextAux (para : List String) (items : List RenderNode) :
    List String → List RenderNode
  | [] => flushPara para ++ flushBullets items
  | l :: rest =>
    if isBulletLine l then
      flushPara para ++ buildTextAux [] (items ++ [bulletItemNode l]) rest
    else if lineEmpty l then
      flushBullets items ++ flushPara para ++ buildTextAux [] [] rest
    else
      flushBullets items ++ buildTextAux (para ++ [l]) [] rest

/-- Modelled from the spec: slide content yields a slide node with a title
sub-node holding the first line and a body sub-node holding the remaining
lines (spec 4.5). -/
def buildSlideNodes (body : String) : List RenderNode :=
  match splitLines body with
  | [] => []
  | title :: rest =>
    [RenderNode.node .slide none
      [RenderNode.node .paragraph (some title) [],
       RenderNode.node .paragraph (some (joinLines rest)) []]]

/-- Modelled from the spec: the Render Tree Builder body mapping (spec 4.5).
The backend export service is not under src/; the design document's Word
export loop (src/unnamed/part_000, lines 1811-1820) shows the per-line
bullet handling that the bullet_list case follows. -/
def buildSectionNodes (kind : ContentKind) (body : String) : List RenderNode :=
  match kind with
  | .text => buildTextAux [] [] (splitLines body)
  | .bullet_list => buildLines (splitLines body)
  | .slide => buildSlideNodes body

/-- The leaves contributed by one built node: a bullet-list node contributes
its bullet-item children, any other node contributes itself. -/
def nodeLeaves (n : RenderNode) : List RenderNode :=
  match n with
  | RenderNode.node .bulletList _ children => children
  | other => [other]

/-- The leaf sequence of a built node list, in order. -/
def sectionLeaves (ns : List RenderNode) : List RenderNode :=
  (ns.map nodeLeaves).flatten

/-- The leaf a single non-empty line maps to under the per-line mapping. -/
def lineLeaf (l : String) : RenderNode :=
  if isBulletLine l then bulletItemNode l else paragraphNode l

/-- Reattach the bullet marker to an item text, reconstructing the input
line. -/
def bulletLineOf (t : String) : String := String.mk ('-' :: ' ' :: t.data)

/-- The input line a bullet-item node came from. -/
def itemOrig (n : RenderNode) : List String :=
  match n with
  | RenderNode.node .bulletItem (some t) _ => [bulletLineOf t]
  | _ => []

/-- The input lines a built node came from, in order. -/
def nodeOrig (n : RenderNode) : List String :=
  match n with
  | RenderNode.node .paragraph (some t) _ => splitLines t
  | RenderNode.node .bulletList _ children => (children.map itemOrig).flatten
  | RenderNode.node .bulletItem (some t) _ => [bulletLineOf t]
  | _ => []

/-- The input lines a built node list came from, in order. -/
def sectionOrig (ns : List RenderNode) : List String :=
  (ns.map nodeOrig).flatten

/-! ## Engine data model (spec section 3).  The backend generation and
refinement services are not under src/: only their design documentation is in
the repository, so the state and the operations are modelled from the
specification. -/

/-- Approval state of a content artifact (spec section 3, ContentArtifact). -/
inductive Approval
  | pending
  | approved
  | superseded
deriving DecidableEq, Repr

/-- Feedback kind (spec section 3, FeedbackRecord). -/
inductive FeedbackKind
  | positive
  | negative
  | comment
deriving DecidableEq, Repr

/-- Modelled from the spec: ContentArtifact (spec section 3); the backend
persistence operations over the generated_content table are not under
src/. -/
structure Artifact where
  id : Nat
  sectionId : Nat
  version : Nat
  body : String
  approval : Approval
deriving DecidableEq, Repr

/-- Modelled from the spec: FeedbackRecord (spec section 3); the backend
refinement service is not under src/. -/
structure FeedbackRecord where
  id : Nat
  artifactId : Nat
  kind : FeedbackKind
  suggestion : Option String
  processed : Bool
  responseId : Option Nat
deriving DecidableEq, Repr

/-- Modelled from the spec: the engine's only mutable shared state (spec
section 5): the persisted artifacts, the feedback records, and the sections
holding an in-flight generation session. -/
structure EngineState where
  artifacts : List Artifact
  feedback : List FeedbackRecord
  inFlight : List Nat
  nextArtifactId : Nat
  nextFeedbackId : Nat
deriving DecidableEq, Repr

/-- The empty initial engine state. -/
def EngineState.init : EngineState :=
  { artifacts := [], feedback := [], inFlight := [],
    nextArtifactId := 0, nextFeedbackId := 0 }

/-- Versions of the persisted artifacts of a section, in persistence order. -/
def versionsOf (st : EngineState) (sec : Nat) : List Nat :=
  (st.artifacts.filter (fun a => a.sectionId == sec)).map (fun a => a.version)

/-- The latest persisted version of a section, zero when none exists. -/
def latestVersion (st : EngineState) (sec : Nat) : Nat :=
  (versionsOf st sec).foldr max 0

/-- Number of approved artifacts of a section. -/
def approvedCount (st : EngineState) (sec : Nat) : Nat :=
  st.artifacts.countP
    (fun a => a.sectionId == sec && a.approval == Approval.approved)

/-- Error taxonomy of the engine (spec section 7). -/
inductive EngineError
  | conflict
  | validation
  | notFound
deriving DecidableEq, Repr

/-- Modelled from the spec: acquiring the per-section exclusivity token (spec
4.3 and 5).  A request for a section that already has an in-flight session is
rejected with a conflict error and produces nothing. -/
def startSession (st : EngineState) (sec : Nat) : Except EngineError EngineState :=
  if sec ∈ st.inFlight then Except.error EngineError.conflict
  else Except.ok { st with inFlight := sec :: st.inFlight }

/-- Modelled from the spec: successful completion of a generation session
(spec 4.3): one atomic step persists a new pending artifact at version equal
to the previous latest version of the section plus one (so one when none
exists) and releases the section's exclusivity token. -/
def completeSession (st : EngineState) (sec : Nat) (body : String) : EngineState :=
  { st with
    artifacts := st.artifacts ++
      [{ id := st.nextArtifactId, sectionId := sec,
         version := latestVersion st sec + 1, body := body,
         approval := Approval.pending }],
    inFlight := st.inFlight.filter (fun s => s != sec),
    nextArtifactId := st.nextArtifactId + 1 }

/-- Modelled from the spec: a failed or cancelled generation session (spec
4.3 and 5): no artifact is persisted, nothing else changes, only the
section's exclusivity token is released. -/
def failSession (st : EngineState) (sec : Nat) : EngineState :=
  { st with inFlight := st.inFlight.filter (fun s => s != sec) }

/-- The per-artifact update of an approval step: the referenced artifact
becomes approved, any approved artifact of the target section is demoted to
superseded, everything else is untouched. -/
def approveUpdate (artId targetSec : Nat) (a : Artifact) : Artifact :=
  if a.id == artId then { a with approval := Approval.approved }
  else if a.sectionId == targetSec && a.approval == Approval.approved then
    { a with approval := Approval.superseded }
  else a

/-- Modelled from the spec: approving an artifact (spec section 3 and 4.4).
In one atomic state transition the referenced artifact becomes approved and
every other artifact of the same section that was approved is demoted to
superseded; no state in which both are approved is ever produced, because the
whole update is a single step. -/
def approveArtifact (st : EngineState) (artId : Nat) : EngineState :=
  match st.artifacts.find? (fun a => a.id == artId) with
  | none => st
  | some target =>
    { st with artifacts :=
        st.artifacts.map (approveUpdate artId target.sectionId) }

/-- Modelled from the spec: submitFeedback (spec 4.4).  Every submission
records one feedback record.  A positive record additionally approves the
referenced artifact, demoting the prior approved one in the same atomic step,
and never produces a session; negative and comment records are only stored
and mutate nothing else. -/
def submitFeedback (st : EngineState) (artId : Nat) (kind : FeedbackKind)
    (sug : Option String) : EngineState :=
  let recorded : EngineState :=
    { st with
      feedback := st.feedback ++
        [{ id := st.nextFeedbackId, artifactId := artId, kind := kind,
           suggestion := sug, processed := false, responseId := none }],
      nextFeedbackId := st.nextFeedbackId + 1 }
  if kind == FeedbackKind.positive then approveArtifact recorded artId
  else recorded

/-- The feedback records referenced by a list of feedback ids. -/
def getRecords (st : EngineState) (ids : List Nat) : List FeedbackRecord :=
  st.feedback.filter (fun r => ids.contains r.id)

/-- Outcome of applyFeedback: either the existing response reference of
already-processed feedback, or a freshly launched session for a section. -/
inductive ApplyOutcome
  | existing (responseId : Option Nat)
  | launched (sec : Nat)
deriving DecidableEq, Repr

/-- Modelled from the spec: applyFeedback (spec 4.4).  Unknown feedback ids
are rejected; a set whose records are all already processed is a no-op that
returns the existing response reference without creating anything; otherwise
the referenced artifact must be the current latest non-superseded artifact of
its section and the section must have no in-flight session, and a new
generation session is launched for it. -/
def applyFeedback (st : EngineState) (ids : List Nat) :
    Except EngineError (EngineState × ApplyOutcome) :=
  match getRecords st ids with
  | [] => Except.error EngineError.notFound
  | r0 :: rs =>
    if (r0 :: rs).all (fun r => r.processed) then
      Except.ok (st, ApplyOutcome.existing r0.responseId)
    else
      match st.artifacts.find? (fun a => a.id == r0.artifactId) with
      | none => Except.error EngineError.notFound
      | some art =>
        if art.approval == Approval.superseded
            || art.version != latestVersion st art.sectionId then
          Except.error EngineError.validation
        else if art.sectionId ∈ st.inFlight then
          Except.error EngineError.conflict
        else
          Except.ok ({ st with inFlight := art.sectionId :: st.inFlight },
            ApplyOutcome.launched art.sectionId)

/-- Modelled from the spec: successful completion of a refinement session
(spec 4.4): the new artifact is persisted like any completed session and
every referenced feedback record is marked processed with its response
reference set to the new artifact's id, exactly once. -/
def completeRefinement (st : EngineState) (sec : Nat) (body : String)
    (ids : List Nat) : EngineState :=
  let newId := st.nextArtifactId
  let st1 := completeSession st sec body
  { st1 with feedback := st1.feedback.map (fun r =>
      if ids.contains r.id && !r.processed then
        { r with processed := true, responseId := some newId }
      else r) }

/-! ## Provider adapter (spec 4.2).  The LLM client code is not under src/,
so the retry policy is modelled from the specification. -/

/-- Provider error classes (spec 4.2): timeouts and 5xx-equivalent server
errors are transient; invalid requests and quota or authorization failures
are not. -/
inductive ProviderError
  | timeout
  | serverError
  | invalidRequest
  | quotaExceeded
  | unauthorized
deriving DecidableEq, Repr

/-- Modelled from the spec: transient classification (spec 4.2). -/
def isTransient : ProviderError → Bool
  | ProviderError.timeout => true
  | ProviderError.serverError => true
  | _ => false

/-- Outcome of one provider attempt. -/
inductive ProviderOutcome
  | success (text : String)
  | failure (e : ProviderError)
deriving DecidableEq, Repr

/-- The fixed small retry bound of the adapter (spec 4.2). -/
def maxRetries : Nat := 2

/-- Modelled from the spec: the retry loop of the Provider Adapter (spec
4.2).  The provider is a function from the attempt index to its outcome;
the call returns the final outcome together with the number of attempts
made.  Transient failures are retried while retry budget remains;
non-transient failures propagate immediately. -/
def attemptFrom (provider : Nat → ProviderOutcome) :
    Nat → Nat → ProviderOutcome × Nat
  | i, 0 =>
    (provider i, i + 1)
  | i, b + 1 =>
    match provider i with
    | ProviderOutcome.success t => (ProviderOutcome.success t, i + 1)
    | ProviderOutcome.failure e =>
      if isTransient e then attemptFrom provider (i + 1) b
      else (ProviderOutcome.failure e, i + 1)

/-- One adapter call: up to maxRetries retries after the first attempt. -/
def generateWithRetry (provider : Nat → ProviderOutcome) :
    ProviderOutcome × Nat :=
  attemptFrom provider 0 maxRetries

/-- Modelled from the spec: one full generation request for a section (spec
4.3): acquire the exclusivity token, run the adapter with its retry policy,
then persist exactly one artifact on success or nothing on failure.  The
Bool of the result tells whether the session completed. -/
def runGeneration (st : EngineState) (sec : Nat)
    (provider : Nat → ProviderOutcome) :
    Except EngineError (EngineState × Bool) :=
  match startSession st sec with
  | Except.error e => Except.error e
  | Except.ok st1 =>
    match generateWithRetry provider with
    | (ProviderOutcome.success t, _) => Except.ok (completeSession st1 sec t, true)
    | (ProviderOutcome.failure _, _) => Except.ok (failSession st1 sec, false)

/-! ## Reachable engine states.  A step is one atomic operation of the
engine; per spec section 5 every mutation of the shared state is a single
atomic step from the persistence collaborator's perspective, so the states
between steps are exactly the externally observable states. -/

/-- One atomic engine operation. -/
inductive EngineStep : EngineState → EngineState → Prop
  | start (st : EngineState) (sec : Nat) (st2 : EngineState) :
      startSession st sec = Except.ok st2 → EngineStep st st2
  | complete (st : EngineState) (sec : Nat) (body : String) :
      EngineStep st (completeSession st sec body)
  | fail (st : EngineState) (sec : Nat) :
      EngineStep st (failSession st sec)
  | approve (st : EngineState) (artId : Nat) :
      EngineStep st (approveArtifact st artId)
  | feedback (st : EngineState) (artId : Nat) (kind : FeedbackKind)
      (sug : Option String) :
      EngineStep st (submitFeedback st artId kind sug)
  | applyFb (st : EngineState) (ids : List Nat) (st2 : EngineState)
      (r : ApplyOutcome) :
      applyFeedback st ids = Except.ok (st2, r) → EngineStep st st2
  | completeRef (st : EngineState) (sec : Nat) (body : String)
      (ids : List Nat) :
      EngineStep st (completeRefinement st sec body ids)

/-- States reachable from the empty initial state by atomic engine steps;
these are the externally observable states of spec section 5. -/
inductive Reachable : EngineState → Prop
  | init : Reachable EngineState.init
  | step {st st2 : EngineState} :
      Reachable st → EngineStep st st2 → Reachable st2

/-- The inductive invariant of the engine state: artifact identities are
unique and below the id counter, every section holds at most one approved
artifact, and the versions of every section form the gapless sequence from
one up to their count. -/
def EngineInv (st : EngineState) : Prop :=
  (st.artifacts.map (fun a => a.id)).Nodup ∧
  (∀ a ∈ st.artifacts, a.id < st.nextArtifactId) ∧
  (∀ sec, approvedCount st sec ≤ 1) ∧
  (∀ sec, versionsOf st sec = List.range' 1 (versionsOf st sec).length)

end DocGen

namespace Frontend

/-! ## Frontend api client (src/frontend/src/pages/LoginPage.tsx, apiClient
response interceptor) and router (src/frontend/src/App.tsx), embedded from
the TypeScript sources. -/

/-- The browser-side store the interceptor mutates: the two tokens kept in
localStorage and the location set on redirect. -/
structure ClientStore where
  accessToken : Option String
  refreshToken : Option String
  href : Option String
deriving DecidableEq, Repr

/-- The part of the axios request config the interceptor inspects: the
retryFlag field embeds the underscore-retry marker the code stamps on a
replayed request. -/
structure RequestCfg where
  retryFlag : Bool
deriving DecidableEq, Repr

/-- What the interceptor decides to do with a failed response. -/
inductive InterceptAction
  | reject
  | replay (req : RequestCfg)
deriving DecidableEq, Repr

/-- The 401-response interceptor of apiClient
(src/frontend/src/pages/LoginPage.tsx, lines 239-283).  On a 401 with a
stored refresh token: a request already carrying the retry marker throws,
which the surrounding catch turns into clearing both tokens, redirecting to
the login path and rejecting; otherwise the refresh endpoint is called once
and on success the access token is stored and the request is replayed with
the retry marker set, while a failed refresh clears both tokens, redirects
to the login path and rejects.  Every other error is rejected unchanged.
The returned Bool tells whether the refresh endpoint was called. -/
def interceptError (st : ClientStore) (req : RequestCfg) (status : Nat)
    (refreshOutcome : Option String) :
    ClientStore × InterceptAction × Bool :=
  if status = 401 then
    match st.refreshToken with
    | none => (st, InterceptAction.reject, false)
    | some _ =>
      if req.retryFlag then
        ({ accessToken := none, refreshToken := none, href := some "/login" },
          InterceptAction.reject, false)
      else
        match refreshOutcome with
        | some tok =>
          ({ st with accessToken := some tok },
            InterceptAction.replay { retryFlag := true }, true)
        | none =>
          ({ accessToken := none, refreshToken := none, href := some "/login" },
            InterceptAction.reject, true)
  else (st, InterceptAction.reject, false)

/-- Run a request through apiClient: the server assigns a response status to
the request depending on its retry marker (none meaning success), every
error response goes through the interceptor, and a replay decision sends the
stamped request through the client again.  The result carries the final
store, whether the request succeeded, the number of replays and the number
of refresh calls. -/
def runAux (fuel : Nat) (st : ClientStore) (req : RequestCfg)
    (server : Bool → Option Nat) (refreshOutcome : Option String) :
    ClientStore × Bool × Nat × Nat :=
  match fuel with
  | 0 => (st, false, 0, 0)
  | fuel + 1 =>
    match server req.retryFlag with
    | none => (st, true, 0, 0)
    | some status =>
      match interceptError st req status refreshOutcome with
      | (st2, InterceptAction.reject, refreshed) =>
        (st2, false, 0, if refreshed then 1 else 0)
      | (st2, InterceptAction.replay req2, refreshed) =>
        match runAux fuel st2 req2 server refreshOutcome with
        | (st3, ok, replays, refreshes) =>
          (st3, ok, replays + 1, refreshes + (if refreshed then 1 else 0))

/-- A fresh request enters the client without the retry marker; fuel two
suffices because at most one replay can ever happen. -/
def runRequest (st : ClientStore) (server : Bool → Option Nat)
    (refreshOutcome : Option String) : ClientStore × Bool × Nat × Nat :=
  runAux 2 st { retryFlag := false } server refreshOutcome

/-- The two pages the router of App.tsx mounts. -/
inductive Page
  | loginPage
  | dashboardPage
deriving DecidableEq, Repr

/-- What one route of App.tsx renders for a path: a page element, a Navigate
redirect, or nothing when no route matches. -/
inductive RouteResult
  | page (p : Page)
  | redirect (target : String)
  | noMatch
deriving DecidableEq, Repr

/-- The route table of App (src/frontend/src/App.tsx, lines 8-26): the login
path renders LoginPage when unauthenticated and a redirect to the dashboard
otherwise; the dashboard path renders DashboardPage when authenticated and a
redirect to the login path otherwise; the root path always redirects to the
dashboard. -/
def route (isAuthenticated : Bool) (path : String) : RouteResult :=
  if path = "/login" then
    if isAuthenticated then RouteResult.redirect "/dashboard"
    else RouteResult.page Page.loginPage
  else if path = "/dashboard" then
    if isAuthenticated then RouteResult.page Page.dashboardPage
    else RouteResult.redirect "/login"
  else if path = "/" then RouteResult.redirect "/dashboard"
  else RouteResult.noMatch

/-- Follow redirects for at most fuel steps and return the final result. -/
def resolve (isAuthenticated : Bool) : Nat → String → RouteResult
  | 0, path => route isAuthenticated path
  | fuel + 1, path =>
    match route isAuthenticated path with
    | RouteResult.redirect t => resolve isAuthenticated fuel t
    | r => r

/-- The pages actually mounted while following redirects from a path. -/
def visitedPages (isAuthenticated : Bool) : Nat → String → List Page
  | 0, path =>
    match route isAuthenticated path with
    | RouteResult.page p => [p]
    | _ => []
  | fuel + 1, path =>
    match route isAuthenticated path with
    | RouteResult.page p => [p]
    | RouteResult.redirect t => visitedPages isAuthenticated fuel t
    | RouteResult.noMatch => []

end Frontend

namespace Frontend

theorem interceptError_retry (st : ClientStore) (req : RequestCfg)
    (status : Nat) (ro : Option String) (h : req.retryFlag = true) :
    (interceptError st req status ro).2.1 = InterceptAction.reject ∧
    (interceptError st req status ro).2.2 = false := by
  unfold interceptError
  split
  · cases hrt : st.refreshToken with
    | none => simp
    | some t => simp [h]
  · simp

theorem interceptError_replay_flag (st : ClientStore) (req : RequestCfg)
    (status : Nat) (ro : Option String) (st2 : ClientStore) (req2 : RequestCfg)
    (rfr : Bool)
    (h : interceptError st req status ro = (st2, InterceptAction.replay req2, rfr)) :
    req2.retryFlag = true := by
  unfold interceptError at h
  split at h
  · cases hrt : st.refreshToken with
    | none => rw [hrt] at h; simp at h
    | some t =>
      rw [hrt] at h
      by_cases hr : req.retryFlag = true
      · simp [hr] at h
      · simp [hr] at h
        cases ro with
        | none => simp at h
        | some tok =>
          simp at h
          obtain ⟨-, h2, -⟩ := h
          rw [← h2]
  · simp at h

theorem runAux_retry_zero (fuel : Nat) (st : ClientStore) (req : RequestCfg)
    (server : Bool → Option Nat) (ro : Option String)
    (h : req.retryFlag = true) :
    (runAux fuel st req server ro).2.2.1 = 0 ∧
    (runAux fuel st req server ro).2.2.2 = 0 := by
  cases fuel with
  | zero => simp [runAux]
  | succ n =>
    unfold runAux
    cases hs : server req.retryFlag with
    | none => simp
    | some status =>
      simp only []
      rcases hI : interceptError st req status ro with ⟨st2, act, rfr⟩
      have hr := interceptError_retry st req status ro h
      rw [hI] at hr
      simp at hr
      obtain ⟨ha, hb⟩ := hr
      subst ha; subst hb
      simp

end Frontend

namespace Frontend

/-- C9: the 401-response interceptor of the frontend apiClient replays the
original request at most once and calls the refresh endpoint at most once
per request; a 401 on a request already carrying the retry marker is
rejected without another refresh; a first 401 with a stored refresh token
triggers exactly one refresh and one replay stamped with the retry marker;
and a failed refresh clears both stored tokens and redirects to the login
path, so the refresh and replay recursion always terminates after at most
one extra attempt. -/
theorem interceptor_single_retry :
    (∀ (st : ClientStore) (server : Bool → Option Nat) (ro : Option String),
      (runRequest st server ro).2.2.1 ≤ 1 ∧ (runRequest st server ro).2.2.2 ≤ 1) ∧
    (∀ (st : ClientStore) (req : RequestCfg) (ro : Option String),
      req.retryFlag = true →
      (interceptError st req 401 ro).2.1 = InterceptAction.reject) ∧
    (∀ (st : ClientStore) (t tok : String), st.refreshToken = some t →
      interceptError st { retryFlag := false } 401 (some tok) =
        ({ st with accessToken := some tok },
          InterceptAction.replay { retryFlag := true }, true)) ∧
    (∀ (st : ClientStore) (t : String), st.refreshToken = some t →
      interceptError st { retryFlag := false } 401 none =
        ({ accessToken := none, refreshToken := none, href := some "/login" },
          InterceptAction.reject, true)) := by
  refine ⟨?_, ?_, ?_, ?_⟩
  · intro st server ro
    unfold runRequest runAux
    cases hs : server false with
    | none => simp
    | some status =>
      simp only []
      rcases hI : interceptError st { retryFlag := false } status ro with ⟨st2, act, rfr⟩
      cases act with
      | reject => cases rfr <;> simp
      | replay req2 =>
        have hflag := interceptError_replay_flag st _ status ro st2 req2 rfr hI
        simp only []
        rcases hR : runAux 1 st2 req2 server ro with ⟨st3, ok, replays, refreshes⟩
        have hz := runAux_retry_zero 1 st2 req2 server ro hflag
        rw [hR] at hz
        simp at hz
        obtain ⟨hz1, hz2⟩ := hz
        subst hz1; subst hz2
        cases rfr <;> simp
  · intro st req ro h
    exact (interceptError_retry st req 401 ro h).1
  · intro st t tok h
    simp [interceptError, h]
  · intro st t h
    simp [interceptError, h]

end Frontend

namespace Frontend

theorem visitedPages_login_false (n : Nat) :
    visitedPages false n "/login" = [Page.loginPage] := by
  cases n <;> simp [visitedPages, route]

theorem visitedPages_dashboard_true (n : Nat) :
    visitedPages true n "/dashboard" = [Page.dashboardPage] := by
  cases n <;> simp [visitedPages, route]

/-- C10: the router of App.tsx preserves the authentication gate on every
route: when unauthenticated, the root and dashboard paths both render
redirects that end at the login page and the dashboard page is never
mounted along the way; when authenticated, the login path renders a
redirect to the dashboard and the login page is never mounted. -/
theorem router_auth_gate :
    (route false "/" = RouteResult.redirect "/dashboard") ∧
    (route false "/dashboard" = RouteResult.redirect "/login") ∧
    (resolve false 2 "/" = RouteResult.page Page.loginPage) ∧
    (resolve false 1 "/dashboard" = RouteResult.page Page.loginPage) ∧
    (∀ fuel, Page.dashboardPage ∉ visitedPages false fuel "/") ∧
    (∀ fuel, Page.dashboardPage ∉ visitedPages false fuel "/dashboard") ∧
    (route true "/login" = RouteResult.redirect "/dashboard") ∧
    (resolve true 1 "/login" = RouteResult.page Page.dashboardPage) ∧
    (∀ fuel, Page.loginPage ∉ visitedPages true fuel "/login") := by
  refine ⟨by simp [route], by simp [route], by simp [resolve, route],
    by simp [resolve, route], ?_, ?_, by simp [route],
    by simp [resolve, route], ?_⟩
  · intro fuel
    match fuel with
    | 0 => simp [visitedPages, route]
    | 1 => simp [visitedPages, route]
    | n + 2 =>
      simp [visitedPages, route, visitedPages_login_false]
  · intro fuel
    match fuel with
    | 0 => simp [visitedPages, route]
    | n + 1 =>
      simp [visitedPages, route, visitedPages_login_false]
  · intro fuel
    match fuel with
    | 0 => simp [visitedPages, route]
    | n + 1 =>
      simp [visitedPages, route, visitedPages_dashboard_true]

end Frontend

namespace DocGen

/-- C4: submitting negative or comment feedback never by itself mutates
approval state, creates an artifact, or launches a generation session: the
artifacts and the in-flight sections are untouched and the only effect is
the newly stored feedback record, so regeneration can only come from a
subsequent explicit applyFeedback call. -/
theorem feedback_frame (st : EngineState) (artId : Nat) (kind : FeedbackKind)
    (sug : Option String) (h : kind ≠ FeedbackKind.positive) :
    (submitFeedback st artId kind sug).artifacts = st.artifacts ∧
    (submitFeedback st artId kind sug).inFlight = st.inFlight ∧
    (submitFeedback st artId kind sug).feedback =
      st.feedback ++
        [{ id := st.nextFeedbackId, artifactId := artId, kind := kind,
           suggestion := sug, processed := false, responseId := none }] := by
  have hk : (kind == FeedbackKind.positive) = false := by
    cases kind <;> simp_all
  simp [submitFeedback, hk]

/-- C5: applyFeedback is idempotent on processed feedback: when every record
of the referenced id set is already marked processed, the call returns the
existing response reference with the state unchanged, and calling it again
returns the same response, creating no second artifact and launching no new
session. -/
theorem applyFeedback_idempotent (st : EngineState) (ids : List Nat)
    (r0 : FeedbackRecord) (rs : List FeedbackRecord)
    (h1 : getRecords st ids = r0 :: rs)
    (h2 : (r0 :: rs).all (fun r => r.processed) = true) :
    applyFeedback st ids = Except.ok (st, ApplyOutcome.existing r0.responseId) ∧
    (∀ (st2 : EngineState) (out : ApplyOutcome),
      applyFeedback st ids = Except.ok (st2, out) →
      applyFeedback st2 ids = Except.ok (st2, out) ∧
      st2.artifacts = st.artifacts ∧ st2.inFlight = st.inFlight) := by
  have hfirst : applyFeedback st ids =
      Except.ok (st, ApplyOutcome.existing r0.responseId) := by
    unfold applyFeedback
    rw [h1]
    simp [h2]
  refine ⟨hfirst, ?_⟩
  intro st2 out hcall
  rw [hfirst] at hcall
  simp at hcall
  obtain ⟨hst, hout⟩ := hcall
  subst hst; subst hout
  exact ⟨hfirst, rfl, rfl⟩

/-- C6: at most one generation session is in-flight per section: a request
for a section with an in-flight session is rejected with a conflict error
and produces no artifact, and of two concurrent requests for the same free
section the first to acquire the per-section token proceeds while the other
receives the conflict error. -/
theorem generation_conflict (st : EngineState) (sec : Nat) :
    (sec ∈ st.inFlight → startSession st sec = Except.error EngineError.conflict) ∧
    (∀ provider, sec ∈ st.inFlight →
      runGeneration st sec provider = Except.error EngineError.conflict) ∧
    (sec ∉ st.inFlight →
      startSession st sec = Except.ok { st with inFlight := sec :: st.inFlight } ∧
      startSession { st with inFlight := sec :: st.inFlight } sec =
        Except.error EngineError.conflict) := by
  refine ⟨?_, ?_, ?_⟩
  · intro h; simp [startSession, h]
  · intro provider h; simp [runGeneration, startSession, h]
  · intro h
    constructor
    · simp [startSession, h]
    · simp [startSession]

theorem filter_ne_of_not_mem (l : List Nat) (sec : Nat) (h : sec ∉ l) :
    l.filter (fun s => s != sec) = l := by
  apply List.filter_eq_self.mpr
  intro a ha
  simp
  intro heq
  exact h (heq ▸ ha)

/-- C7: a failed generation session persists no artifact and leaves the
section's state unchanged: the artifacts, every section's version sequence
and latest version, the in-flight set and the feedback records are exactly
as before the session started, and any previously approved artifact is
still present and approved. -/
theorem failed_generation_nondestructive (st : EngineState) (sec : Nat)
    (provider : Nat → ProviderOutcome) (st2 : EngineState)
    (h : runGeneration st sec provider = Except.ok (st2, false)) :
    st2.artifacts = st.artifacts ∧
    (∀ s2, versionsOf st2 s2 = versionsOf st s2) ∧
    (∀ s2, latestVersion st2 s2 = latestVersion st s2) ∧
    st2.inFlight = st.inFlight ∧
    st2.feedback = st.feedback ∧
    (∀ a, a ∈ st.artifacts → a.approval = Approval.approved →
      a ∈ st2.artifacts ∧ a.approval = Approval.approved) := by
  by_cases hm : sec ∈ st.inFlight
  · simp [runGeneration, startSession, hm] at h
  · rcases hg : generateWithRetry provider with ⟨out, n⟩
    cases out with
    | success t =>
      simp [runGeneration, startSession, hm, hg] at h
    | failure e =>
      simp [runGeneration, startSession, hm, hg, failSession] at h
      have hst2 : st2 = { st with
          inFlight := st.inFlight.filter (fun s => s != sec) } := h.symm
      rw [filter_ne_of_not_mem st.inFlight sec hm] at hst2
      subst hst2
      refine ⟨rfl, fun s2 => rfl, fun s2 => rfl, rfl, rfl, ?_⟩
      intro a ha hap
      exact ⟨ha, hap⟩

end DocGen

namespace DocGen

theorem attemptFrom_bound (provider : Nat → ProviderOutcome) :
    ∀ (budget i : Nat), (attemptFrom provider i budget).2 ≤ i + budget + 1 := by
  intro budget
  induction budget with
  | zero => intro i; simp [attemptFrom]
  | succ b ih =>
    intro i
    unfold attemptFrom
    cases provider i with
    | success t => simp
    | failure e =>
      by_cases ht : isTransient e = true
      · simp only [ht, if_true]
        have := ih (i + 1)
        omega
      · simp only [ht]
        simp

theorem versionsOf_completeSession_self (st : EngineState) (sec : Nat)
    (body : String) :
    versionsOf (completeSession st sec body) sec =
      versionsOf st sec ++ [latestVersion st sec + 1] := by
  simp [versionsOf, completeSession, List.filter_append]

/-- C8: the provider adapter retries only transient-classified errors, up
to the fixed bound of two retries (so at most three attempts in total);
a non-transient first failure propagates immediately after exactly one
attempt; and a call that fails twice transiently and succeeds on the third
internal attempt completes the session with exactly one persisted artifact
at the next version, with no partial or duplicate artifacts. -/
theorem adapter_retry_policy :
    (∀ (provider : Nat → ProviderOutcome) (e : ProviderError),
      provider 0 = ProviderOutcome.failure e → isTransient e = false →
      generateWithRetry provider = (ProviderOutcome.failure e, 1)) ∧
    (∀ provider : Nat → ProviderOutcome,
      (generateWithRetry provider).2 ≤ maxRetries + 1) ∧
    (∀ (provider : Nat → ProviderOutcome) (e1 e2 : ProviderError) (t : String),
      provider 0 = ProviderOutcome.failure e1 → isTransient e1 = true →
      provider 1 = ProviderOutcome.failure e2 → isTransient e2 = true →
      provider 2 = ProviderOutcome.success t →
      generateWithRetry provider = (ProviderOutcome.success t, 3)) ∧
    (∀ (st : EngineState) (sec : Nat) (provider : Nat → ProviderOutcome)
      (e1 e2 : ProviderError) (t : String),
      sec ∉ st.inFlight →
      provider 0 = ProviderOutcome.failure e1 → isTransient e1 = true →
      provider 1 = ProviderOutcome.failure e2 → isTransient e2 = true →
      provider 2 = ProviderOutcome.success t →
      ∀ (st2 : EngineState) (ok : Bool),
        runGeneration st sec provider = Except.ok (st2, ok) →
        ok = true ∧ st2.artifacts.length = st.artifacts.length + 1 ∧
        versionsOf st2 sec = versionsOf st sec ++ [latestVersion st sec + 1]) := by
  refine ⟨?_, ?_, ?_, ?_⟩
  · intro provider e h0 ht
    simp [generateWithRetry, maxRetries, attemptFrom, h0, ht]
  · intro provider
    have := attemptFrom_bound provider maxRetries 0
    simp [generateWithRetry]
    omega
  · intro provider e1 e2 t h0 h1t h1 h2t h2
    simp [generateWithRetry, maxRetries, attemptFrom, h0, h1t, h1, h2t, h2]
  · intro st sec provider e1 e2 t hm h0 h1t h1 h2t h2 st2 ok hrun
    have hg : generateWithRetry provider = (ProviderOutcome.success t, 3) := by
      simp [generateWithRetry, maxRetries, attemptFrom, h0, h1t, h1, h2t, h2]
    simp [runGeneration, startSession, hm, hg] at hrun
    obtain ⟨hst2, hok⟩ := hrun
    subst hok
    refine ⟨rfl, ?_, ?_⟩
    · rw [← hst2]
      simp [completeSession]
    · rw [← hst2]
      have harts : ({ st with inFlight := sec :: st.inFlight } :
          EngineState).artifacts = st.artifacts := rfl
      rw [versionsOf_completeSession_self]
      simp [versionsOf, latestVersion]

end DocGen

namespace DocGen

theorem approveUpdate_id (artId ts : Nat) (a : Artifact) :
    (approveUpdate artId ts a).id = a.id := by
  unfold approveUpdate
  split
  · rfl
  · split <;> rfl

theorem approveUpdate_sectionId (artId ts : Nat) (a : Artifact) :
    (approveUpdate artId ts a).sectionId = a.sectionId := by
  unfold approveUpdate
  split
  · rfl
  · split <;> rfl

theorem approveUpdate_version (artId ts : Nat) (a : Artifact) :
    (approveUpdate artId ts a).version = a.version := by
  unfold approveUpdate
  split
  · rfl
  · split <;> rfl

theorem countP_id_le_one (l : List Artifact)
    (h : (l.map (fun a => a.id)).Nodup) (v : Nat) :
    l.countP (fun a => a.id == v) ≤ 1 := by
  induction l with
  | nil => simp
  | cons a l ih =>
    rw [List.map_cons, List.nodup_cons] at h
    rw [List.countP_cons]
    by_cases hv : (a.id == v) = true
    · have hav : a.id = v := by simpa using hv
      have h0 : l.countP (fun b => b.id == v) = 0 := by
        apply List.countP_eq_zero.mpr
        intro b hb
        simp
        intro hbv
        exact h.1 (by rw [hav, ← hbv]; exact List.mem_map_of_mem _ hb)
      simp [hv, h0]
    · simp [hv]
      exact ih h.2

end DocGen

namespace DocGen

theorem foldr_max_range (n : Nat) :
    ∀ s : Nat, List.foldr max 0 (List.range' s n) = if n = 0 then 0 else s + n - 1 := by
  induction n with
  | zero => intro s; simp
  | succ m ih =>
    intro s
    rw [List.range'_succ s m 1]
    simp only [List.foldr_cons]
    rw [ih (s + 1)]
    by_cases hm : m = 0
    · subst hm; simp
    · simp [hm]

theorem versionsOf_completeSession (st : EngineState) (sec : Nat)
    (body : String) (s2 : Nat) :
    versionsOf (completeSession st sec body) s2 =
      if s2 = sec then versionsOf st sec ++ [latestVersion st sec + 1]
      else versionsOf st s2 := by
  by_cases h : s2 = sec
  · subst h
    simp [versionsOf, completeSession, List.filter_append]
  · simp [versionsOf, completeSession, List.filter_append, h]
    intro heq
    exact absurd heq.symm h

theorem versionsOf_approve (st : EngineState) (artId : Nat) (sec : Nat) :
    versionsOf (approveArtifact st artId) sec = versionsOf st sec := by
  rcases hf : st.artifacts.find? (fun a => a.id == artId) with _ | t
  · simp [approveArtifact, hf]
  · simp only [approveArtifact, hf]
    unfold versionsOf
    simp only []
    rw [List.filter_map]
    have h1 : st.artifacts.filter
        ((fun a => a.sectionId == sec) ∘ approveUpdate artId t.sectionId) =
        st.artifacts.filter (fun a => a.sectionId == sec) := by
      apply List.filter_congr
      intro a ha
      simp [Function.comp, approveUpdate_sectionId]
    rw [h1, List.map_map]
    apply List.map_congr_left
    intro a ha
    simp [Function.comp, approveUpdate_version]

end DocGen

namespace DocGen

theorem approvedCount_approve (st : EngineState) (artId : Nat)
    (hnd : (st.artifacts.map (fun a => a.id)).Nodup)
    (hc : ∀ sec, approvedCount st sec ≤ 1) :
    ∀ sec, approvedCount (approveArtifact st artId) sec ≤ 1 := by
  intro sec
  rcases hf : st.artifacts.find? (fun a => a.id == artId) with _ | t
  · simp only [approveArtifact, hf]
    exact hc sec
  · have htid : t.id = artId := by simpa using List.find?_some hf
    have htmem : t ∈ st.artifacts := List.mem_of_find?_eq_some hf
    simp only [approveArtifact, hf]
    unfold approvedCount
    simp only []
    rw [List.countP_map]
    by_cases hsec : t.sectionId = sec
    · apply le_trans (List.countP_mono_left ?_) (countP_id_le_one st.artifacts hnd artId)
      intro a ha hpa
      simp only [Function.comp] at hpa
      by_cases hid : (a.id == artId) = true
      · exact hid
      · exfalso
        simp only [approveUpdate, hid] at hpa
        by_cases hd : (a.sectionId == t.sectionId
            && a.approval == Approval.approved) = true
        · rw [if_pos hd] at hpa
          simp at hpa
        · rw [if_neg hd] at hpa
          rw [Bool.and_eq_true] at hpa
          obtain ⟨hp1, hp2⟩ := hpa
          simp at hp1 hp2 hd
          exact hd (hp1.trans hsec.symm) hp2
    · apply le_trans (List.countP_mono_left ?_) (hc sec)
      intro a ha hpa
      simp only [Function.comp] at hpa
      by_cases hid : (a.id == artId) = true
      · exfalso
        have haid : a.id = artId := by simpa using hid
        have hat : a = t :=
          List.inj_on_of_nodup_map hnd ha htmem (by rw [haid, htid])
        subst hat
        simp only [approveUpdate, hid] at hpa
        simp at hpa
        exact hsec hpa
      · simp only [approveUpdate, hid] at hpa
        by_cases hd : (a.sectionId == t.sectionId
            && a.approval == Approval.approved) = true
        · rw [if_pos hd] at hpa
          simp at hpa
        · rw [if_neg hd] at hpa
          exact hpa

end DocGen

namespace DocGen

theorem inv_congr (st st2 : EngineState) (ha : st2.artifacts = st.artifacts)
    (hn : st2.nextArtifactId = st.nextArtifactId) (h : EngineInv st) :
    EngineInv st2 := by
  unfold EngineInv approvedCount versionsOf at h ⊢
  rw [ha, hn]
  exact h

theorem approve_preserves_inv (st : EngineState) (artId : Nat)
    (h : EngineInv st) : EngineInv (approveArtifact st artId) := by
  obtain ⟨hnd, hbound, hc, hv⟩ := h
  rcases hf : st.artifacts.find? (fun a => a.id == artId) with _ | t
  · simp only [approveArtifact, hf]
    exact ⟨hnd, hbound, hc, hv⟩
  · refine ⟨?_, ?_, ?_, ?_⟩
    · simp only [approveArtifact, hf]
      rw [List.map_map]
      have : ((fun a => a.id) ∘ approveUpdate artId t.sectionId) =
          fun a : Artifact => a.id := by
        funext a
        simp [Function.comp, approveUpdate_id]
      rw [this]
      exact hnd
    · simp only [approveArtifact, hf]
      intro a2 ha2
      rw [List.mem_map] at ha2
      obtain ⟨a, ha, rfl⟩ := ha2
      rw [approveUpdate_id]
      exact hbound a ha
    · have := approvedCount_approve st artId hnd hc
      simp only [approveArtifact, hf] at this ⊢
      exact this
    · intro sec
      have hva := versionsOf_approve st artId sec
      rw [hva]
      exact hv sec

theorem complete_preserves_inv (st : EngineState) (sec : Nat) (body : String)
    (h : EngineInv st) : EngineInv (completeSession st sec body) := by
  obtain ⟨hnd, hbound, hc, hv⟩ := h
  refine ⟨?_, ?_, ?_, ?_⟩
  · simp only [completeSession, List.map_append]
    rw [List.nodup_append]
    refine ⟨hnd, by simp, ?_⟩
    intro x hx
    rw [List.mem_map] at hx
    obtain ⟨a, ha, rfl⟩ := hx
    simp
    exact Nat.ne_of_lt (hbound a ha)
  · simp only [completeSession]
    intro a ha
    rw [List.mem_append] at ha
    rcases ha with ha | ha
    · exact Nat.lt_succ_of_lt (hbound a ha)
    · simp at ha
      rw [ha]
      simp
  · intro s2
    unfold approvedCount
    simp only [completeSession]
    rw [List.countP_append]
    simpa using hc s2
  · intro s2
    rw [versionsOf_completeSession]
    by_cases h2 : s2 = sec
    · rw [if_pos h2]
      subst h2
      have hn := hv s2
      set n := (versionsOf st s2).length with hdef
      have hlv : latestVersion st s2 + 1 = n + 1 := by
        unfold latestVersion
        rw [hn, foldr_max_range]
        by_cases hz : n = 0
        · simp [hz]
        · simp [hz]
      rw [hlv, hn]
      rw [List.length_append, List.length_range']
      simp only [List.length_cons, List.length_nil]
      rw [List.range'_concat]
      simp
      omega
    · rw [if_neg h2]
      exact hv s2

end DocGen

namespace DocGen

theorem startSession_frame (st : EngineState) (sec : Nat) (st2 : EngineState)
    (h : startSession st sec = Except.ok st2) :
    st2.artifacts = st.artifacts ∧ st2.nextArtifactId = st.nextArtifactId := by
  unfold startSession at h
  split at h
  · simp at h
  · simp at h
    rw [← h]
    exact ⟨rfl, rfl⟩

theorem applyFeedback_frame (st : EngineState) (ids : List Nat)
    (st2 : EngineState) (r : ApplyOutcome)
    (h : applyFeedback st ids = Except.ok (st2, r)) :
    st2.artifacts = st.artifacts ∧ st2.nextArtifactId = st.nextArtifactId := by
  unfold applyFeedback at h
  rcases hg : getRecords st ids with _ | ⟨r0, rs⟩
  · rw [hg] at h; simp at h
  · rw [hg] at h
    dsimp only at h
    by_cases hall : ((r0 :: rs).all fun r => r.processed) = true
    · rw [if_pos hall] at h
      simp at h
      rw [← h.1]
      exact ⟨rfl, rfl⟩
    · rw [if_neg hall] at h
      rcases hf : st.artifacts.find? (fun a => a.id == r0.artifactId) with _ | art
      · rw [hf] at h
        dsimp only at h
        exact absurd h (by simp)
      · rw [hf] at h
        dsimp only at h
        by_cases hv1 : (art.approval == Approval.superseded
            || art.version != latestVersion st art.sectionId) = true
        · rw [if_pos hv1] at h
          exact absurd h (by simp)
        · rw [if_neg hv1] at h
          by_cases hv2 : art.sectionId ∈ st.inFlight
          · rw [if_pos hv2] at h
            exact absurd h (by simp)
          · rw [if_neg hv2] at h
            simp only [Except.ok.injEq, Prod.mk.injEq] at h
            rw [← h.1]
            exact ⟨rfl, rfl⟩

theorem submitFeedback_preserves_inv (st : EngineState) (artId : Nat)
    (kind : FeedbackKind) (sug : Option String) (h : EngineInv st) :
    EngineInv (submitFeedback st artId kind sug) := by
  unfold submitFeedback
  by_cases hk : (kind == FeedbackKind.positive) = true
  · rw [if_pos hk]
    apply approve_preserves_inv
    exact inv_congr _ st rfl rfl h
  · rw [if_neg hk]
    exact inv_congr _ st rfl rfl h

theorem completeRefinement_preserves_inv (st : EngineState) (sec : Nat)
    (body : String) (ids : List Nat) (h : EngineInv st) :
    EngineInv (completeRefinement st sec body ids) := by
  unfold completeRefinement
  apply inv_congr _ (completeSession st sec body) rfl rfl
  exact complete_preserves_inv st sec body h

theorem reachable_inv (st : EngineState) (h : Reachable st) : EngineInv st := by
  induction h with
  | init =>
    refine ⟨?_, ?_, ?_, ?_⟩
    · simp [EngineState.init]
    · intro a ha; simp [EngineState.init] at ha
    · intro sec; simp [EngineState.init, approvedCount]
    · intro sec; simp [EngineState.init, versionsOf]
  | step hr hs ih =>
    cases hs with
    | start s1 s2 s3 =>
      obtain ⟨ha, hn⟩ := startSession_frame _ _ _ s3
      exact inv_congr _ _ ha hn ih
    | complete sec body => exact complete_preserves_inv _ sec body ih
    | fail sec => exact inv_congr _ _ rfl rfl ih
    | approve artId => exact approve_preserves_inv _ artId ih
    | feedback artId kind sug =>
      exact submitFeedback_preserves_inv _ artId kind sug ih
    | applyFb s1 s2 s3 s4 =>
      obtain ⟨ha, hn⟩ := applyFeedback_frame _ _ _ _ s4
      exact inv_congr _ _ ha hn ih
    | completeRef sec body ids =>
      exact completeRefinement_preserves_inv _ sec body ids ih

end DocGen

namespace DocGen

theorem approve_demotes (st : EngineState) (artId : Nat) (target : Artifact)
    (hf : st.artifacts.find? (fun a => a.id == artId) = some target) :
    ∀ b ∈ (approveArtifact st artId).artifacts,
      b.sectionId = target.sectionId → b.approval = Approval.approved →
      b.id = artId := by
  intro b hb hbs hba
  simp only [approveArtifact, hf] at hb
  rw [List.mem_map] at hb
  obtain ⟨a, ha, rfl⟩ := hb
  by_cases hid : (a.id == artId) = true
  · rw [approveUpdate_id]
    simpa using hid
  · exfalso
    simp only [approveUpdate, hid] at hbs hba
    by_cases hd : (a.sectionId == target.sectionId
        && a.approval == Approval.approved) = true
    · rw [if_pos hd] at hba
      simp at hba
    · rw [if_neg hd] at hbs hba
      rw [Bool.and_eq_true] at hd
      simp at hd
      exact hd (by simpa using hbs) hba

/-- C1: in every reachable (externally observable) engine state, at most
one artifact per section is approved; approving an artifact is one atomic
step after which every other artifact of the target section is not
approved, so the previously approved artifact is demoted to superseded in
the same step and no observable state has two approved artifacts of one
section. -/
theorem approval_exclusive (st : EngineState) (h : Reachable st) :
    (∀ sec, approvedCount st sec ≤ 1) ∧
    (∀ artId sec, approvedCount (approveArtifact st artId) sec ≤ 1) ∧
    (∀ artId target, st.artifacts.find? (fun a => a.id == artId) = some target →
      ∀ b ∈ (approveArtifact st artId).artifacts,
        b.sectionId = target.sectionId → b.approval = Approval.approved →
        b.id = artId) := by
  obtain ⟨hnd, hbound, hc, hv⟩ := reachable_inv st h
  refine ⟨hc, ?_, ?_⟩
  · intro artId
    exact approvedCount_approve st artId hnd hc
  · intro artId target hf
    exact approve_demotes st artId target hf

/-- C2: in every reachable engine state the persisted artifact versions of
every section form exactly the gapless sequence from one up to their count;
a completed session always persists at version equal to the previous latest
version plus one (so one when none exists), and a failed session changes no
section's version sequence. -/
theorem versions_gapless (st : EngineState) (h : Reachable st) :
    (∀ sec, versionsOf st sec = List.range' 1 (versionsOf st sec).length) ∧
    (∀ sec body, versionsOf (completeSession st sec body) sec =
      versionsOf st sec ++ [latestVersion st sec + 1]) ∧
    (∀ sec s2, versionsOf (failSession st s2) sec = versionsOf st sec) := by
  obtain ⟨hnd, hbound, hc, hv⟩ := reachable_inv st h
  refine ⟨hv, ?_, ?_⟩
  · intro sec body
    exact versionsOf_completeSession_self st sec body
  · intro sec s2
    rfl

end DocGen

namespace DocGen

theorem sectionLeaves_append (xs ys : List RenderNode) :
    sectionLeaves (xs ++ ys) = sectionLeaves xs ++ sectionLeaves ys := by
  simp [sectionLeaves]

theorem sectionLeaves_cons (x : RenderNode) (xs : List RenderNode) :
    sectionLeaves (x :: xs) = nodeLeaves x ++ sectionLeaves xs := by
  simp [sectionLeaves]

theorem sectionLeaves_flushBullets (items : List RenderNode) :
    sectionLeaves (flushBullets items) = items := by
  unfold flushBullets
  split
  · rename_i h
    rw [List.isEmpty_iff] at h
    simp [h, sectionLeaves]
  · simp [sectionLeaves, nodeLeaves]

theorem isBulletLine_not_empty (l : String) (h : isBulletLine l = true) :
    lineEmpty l = false := by
  unfold isBulletLine at h
  unfold lineEmpty
  rcases hd : l.data with _ | ⟨c1, tail⟩
  · rw [hd] at h; simp at h
  · simp

theorem buildAux_leaves (lines : List String) :
    ∀ items, sectionLeaves (buildAux items lines) =
      items ++ (lines.filter (fun l => !lineEmpty l)).map lineLeaf := by
  induction lines with
  | nil =>
    intro items
    simp [buildAux, sectionLeaves_flushBullets]
  | cons l rest ih =>
    intro items
    by_cases hb : isBulletLine l = true
    · have hne := isBulletLine_not_empty l hb
      simp only [buildAux]
      rw [if_pos hb]
      rw [ih (items ++ [bulletItemNode l])]
      rw [List.filter_cons]
      simp [hne, lineLeaf, hb]
    · simp only [buildAux]
      rw [if_neg hb]
      by_cases he : lineEmpty l = true
      · rw [if_pos he]
        rw [sectionLeaves_append, sectionLeaves_flushBullets, ih []]
        rw [List.filter_cons]
        simp [he]
      · rw [if_neg he]
        rw [sectionLeaves_append, sectionLeaves_flushBullets]
        rw [sectionLeaves_cons, ih []]
        rw [List.filter_cons]
        have he2 : lineEmpty l = false := by
          rw [← Bool.not_eq_true]
          exact he
        simp only [he2, Bool.not_false, if_true]
        simp [nodeLeaves, lineLeaf, hb, paragraphNode]

end DocGen

namespace DocGen

theorem splitCharsAux_no_nl (xs : List Char) :
    ∀ cur, (∀ c ∈ xs, c ≠ '\n') →
      splitCharsAux cur xs = [String.mk (cur.reverse ++ xs)] := by
  induction xs with
  | nil => intro cur h; simp [splitCharsAux]
  | cons x xs ih =>
    intro cur h
    have hx : x ≠ '\n' := h x (by simp)
    simp only [splitCharsAux]
    rw [if_neg hx]
    rw [ih (x :: cur) (fun c hc => h c (by simp [hc]))]
    simp

theorem splitCharsAux_append_nl (xs : List Char) :
    ∀ (cur : List Char) (ys : List Char), (∀ c ∈ xs, c ≠ '\n') →
      splitCharsAux cur (xs ++ '\n' :: ys) =
        String.mk (cur.reverse ++ xs) :: splitCharsAux [] ys := by
  induction xs with
  | nil =>
    intro cur ys h
    simp [splitCharsAux]
  | cons x xs ih =>
    intro cur ys h
    have hx : x ≠ '\n' := h x (by simp)
    simp only [List.cons_append, splitCharsAux]
    rw [if_neg hx]
    show splitCharsAux (x :: cur) (xs ++ '\n' :: ys) = _
    rw [ih (x :: cur) ys (fun c hc => h c (by simp [hc]))]
    simp

theorem splitLines_single (l : String) (h : ∀ c ∈ l.data, c ≠ '\n') :
    splitLines l = [l] := by
  unfold splitLines
  rw [splitCharsAux_no_nl l.data [] h]
  simp

theorem splitLines_joinLines (ls : List String) :
    ls ≠ [] → (∀ l ∈ ls, ∀ c ∈ l.data, c ≠ '\n') →
    splitLines (joinLines ls) = ls := by
  induction ls with
  | nil => intro h; exact absurd rfl h
  | cons l rest ih =>
    intro _ h
    cases rest with
    | nil =>
      simp only [joinLines]
      exact splitLines_single l (h l (by simp))
    | cons r rest2 =>
      have hjoin : joinLines (l :: r :: rest2) =
          l ++ "\n" ++ joinLines (r :: rest2) := rfl
      rw [hjoin]
      unfold splitLines
      have hdata : (l ++ "\n" ++ joinLines (r :: rest2)).data =
          l.data ++ '\n' :: (joinLines (r :: rest2)).data := by
        simp [String.data_append]
      rw [hdata]
      rw [splitCharsAux_append_nl l.data [] _ (h l (by simp))]
      simp only [List.reverse_nil, List.nil_append]
      have hrec : splitCharsAux [] (joinLines (r :: rest2)).data =
          r :: rest2 := by
        have := ih (by simp) (fun x hx => h x (by simp [hx]))
        unfold splitLines at this
        exact this
      rw [hrec]

end DocGen

namespace DocGen

theorem sectionOrig_append (xs ys : List RenderNode) :
    sectionOrig (xs ++ ys) = sectionOrig xs ++ sectionOrig ys := by
  simp [sectionOrig]

theorem sectionOrig_cons (x : RenderNode) (xs : List RenderNode) :
    sectionOrig (x :: xs) = nodeOrig x ++ sectionOrig xs := by
  simp [sectionOrig]

theorem sectionOrig_flushBullets (items : List RenderNode) :
    sectionOrig (flushBullets items) = (items.map itemOrig).flatten := by
  unfold flushBullets
  split
  · rename_i h
    rw [List.isEmpty_iff] at h
    simp [h, sectionOrig]
  · simp [sectionOrig, nodeOrig]

theorem data_mk (cs : List Char) : (String.mk cs).data = cs := rfl

theorem bulletLineOf_bulletText (l : String) (h : isBulletLine l = true) :
    bulletLineOf (bulletText l) = l := by
  unfold isBulletLine at h
  split at h
  · rename_i tail heq
    unfold bulletLineOf bulletText
    rw [heq, data_mk]
    simp only [List.drop_succ_cons, List.drop_zero]
    rw [← heq]
  · simp at h

theorem itemOrig_bulletItemNode (l : String) (h : isBulletLine l = true) :
    itemOrig (bulletItemNode l) = [l] := by
  unfold itemOrig bulletItemNode
  simp [bulletLineOf_bulletText l h]

theorem splitLines_no_nl (s : String) :
    ∀ l ∈ splitLines s, ∀ c ∈ l.data, c ≠ '\n' := by
  unfold splitLines
  generalize s.data = cs
  suffices h : ∀ (cs cur : List Char), (∀ c ∈ cur, c ≠ '\n') →
      ∀ l ∈ splitCharsAux cur cs, ∀ c ∈ l.data, c ≠ '\n' by
    exact h cs [] (by simp)
  intro cs
  induction cs with
  | nil =>
    intro cur hcur l hl c hc
    simp [splitCharsAux] at hl
    rw [hl] at hc
    simp at hc
    exact hcur c hc
  | cons x xs ih =>
    intro cur hcur l hl c hc
    by_cases hx : x = '\n'
    · rw [hx] at hl
      simp only [splitCharsAux, if_pos rfl] at hl
      rcases List.mem_cons.mp hl with hl | hl
      · rw [hl] at hc
        simp at hc
        exact hcur c hc
      · exact ih [] (by simp) l hl c hc
    · simp only [splitCharsAux] at hl
      rw [if_neg hx] at hl
      exact ih (x :: cur) (by
        intro d hd
        rcases List.mem_cons.mp hd with hd | hd
        · rw [hd]; exact hx
        · exact hcur d hd) l hl c hc

end DocGen

namespace DocGen

theorem nodeOrig_paragraphNode (l : String) :
    nodeOrig (paragraphNode l) = splitLines l := rfl

theorem buildAux_orig (lines : List String)
    (hnl : ∀ l ∈ lines, ∀ c ∈ l.data, c ≠ '\n') :
    ∀ items, sectionOrig (buildAux items lines) =
      (items.map itemOrig).flatten ++ lines.filter (fun l => !lineEmpty l) := by
  induction lines with
  | nil =>
    intro items
    simp [buildAux, sectionOrig_flushBullets]
  | cons l rest ih =>
    have hnl2 : ∀ x ∈ rest, ∀ c ∈ x.data, c ≠ '\n' :=
      fun x hx => hnl x (by simp [hx])
    have hnll : ∀ c ∈ l.data, c ≠ '\n' := hnl l (by simp)
    intro items
    by_cases hb : isBulletLine l = true
    · have hne := isBulletLine_not_empty l hb
      simp only [buildAux]
      rw [if_pos hb]
      rw [ih hnl2 (items ++ [bulletItemNode l])]
      rw [List.filter_cons]
      simp only [hne, Bool.not_false, if_true]
      rw [List.map_append]
      simp [itemOrig_bulletItemNode l hb]
    · simp only [buildAux]
      rw [if_neg hb]
      by_cases he : lineEmpty l = true
      · rw [if_pos he]
        rw [sectionOrig_append, sectionOrig_flushBullets, ih hnl2 []]
        rw [List.filter_cons]
        simp [he]
      · rw [if_neg he]
        rw [sectionOrig_append, sectionOrig_flushBullets]
        rw [sectionOrig_cons, ih hnl2 []]
        rw [List.filter_cons]
        have he2 : lineEmpty l = false := by
          rw [← Bool.not_eq_true]
          exact he
        simp only [he2, Bool.not_false, if_true]
        rw [nodeOrig_paragraphNode, splitLines_single l hnll]
        simp

theorem sectionOrig_flushPara (para : List String)
    (h : ∀ l ∈ para, ∀ c ∈ l.data, c ≠ '\n') :
    sectionOrig (flushPara para) = para := by
  unfold flushPara
  split
  · rename_i hp
    rw [List.isEmpty_iff] at hp
    simp [hp, sectionOrig]
  · rename_i hp
    simp only [sectionOrig, List.map_cons, List.map_nil, List.flatten]
    rw [nodeOrig_paragraphNode]
    have hne : para ≠ [] := by
      intro hcon
      rw [hcon] at hp
      simp at hp
    rw [splitLines_joinLines para hne h]
    simp

end DocGen

namespace DocGen

theorem buildTextAux_orig (lines : List String)
    (hnl : ∀ l ∈ lines, ∀ c ∈ l.data, c ≠ '\n') :
    ∀ (para : List String) (items : List RenderNode),
      (∀ l ∈ para, ∀ c ∈ l.data, c ≠ '\n') →
      (para = [] ∨ items = []) →
      sectionOrig (buildTextAux para items lines) =
        para ++ (items.map itemOrig).flatten ++
          lines.filter (fun l => !lineEmpty l) := by
  induction lines with
  | nil =>
    intro para items hpara hdisj
    simp only [buildTextAux]
    rw [sectionOrig_append, sectionOrig_flushPara para hpara,
      sectionOrig_flushBullets]
    simp
  | cons l rest ih =>
    have hnl2 : ∀ x ∈ rest, ∀ c ∈ x.data, c ≠ '\n' :=
      fun x hx => hnl x (by simp [hx])
    have hnll : ∀ c ∈ l.data, c ≠ '\n' := hnl l (by simp)
    intro para items hpara hdisj
    by_cases hb : isBulletLine l = true
    · have hne := isBulletLine_not_empty l hb
      simp only [buildTextAux]
      rw [if_pos hb]
      rw [sectionOrig_append, sectionOrig_flushPara para hpara]
      rw [ih hnl2 [] (items ++ [bulletItemNode l]) (by simp) (Or.inl rfl)]
      rw [List.filter_cons]
      simp only [hne, Bool.not_false, if_true]
      rw [List.map_append]
      simp [itemOrig_bulletItemNode l hb]
    · simp only [buildTextAux]
      rw [if_neg hb]
      by_cases he : lineEmpty l = true
      · rw [if_pos he]
        rw [sectionOrig_append, sectionOrig_append, sectionOrig_flushBullets,
          sectionOrig_flushPara para hpara]
        rw [ih hnl2 [] [] (by simp) (Or.inl rfl)]
        rw [List.filter_cons]
        simp only [he, Bool.not_true, if_false]
        rcases hdisj with hdisj | hdisj
        · rw [hdisj]
          simp
        · rw [hdisj]
          simp
      · rw [if_neg he]
        rw [sectionOrig_append, sectionOrig_flushBullets]
        have hpara2 : ∀ x ∈ para ++ [l], ∀ c ∈ x.data, c ≠ '\n' := by
          intro x hx
          rcases List.mem_append.mp hx with hx | hx
          · exact hpara x hx
          · simp at hx
            rw [hx]
            exact hnll
        rw [ih hnl2 (para ++ [l]) [] hpara2 (Or.inr rfl)]
        rw [List.filter_cons]
        have he2 : lineEmpty l = false := by
          rw [← Bool.not_eq_true]
          exact he
        simp only [he2, Bool.not_false, if_true]
        rcases hdisj with hdisj | hdisj
        · rw [hdisj]
          simp
        · rw [hdisj]
          simp

end DocGen

namespace DocGen

/-- C3: the Render Tree Builder maps content kind to node shape: for the
bullet_list body of the claim the tree is one paragraph node for the intro
line followed by one bullet-list node holding the two bullet-item leaves in
order; under the per-line mapping the leaves are exactly the non-empty
input lines in input order, bullet-marked lines as bullet items and the
rest as paragraphs; slide content yields a slide node with a title sub-node
for the first line and a body sub-node for the rest; text content yields
paragraph nodes split on blank-line boundaries; and for both text and
bullet_list bodies the built nodes cover exactly the non-empty input lines
in input order, totally and losslessly. -/
theorem render_tree_mapping :
    (buildSectionNodes ContentKind.bullet_list "Intro line\n- point A\n- point B" =
      [RenderNode.node NodeKind.paragraph (some "Intro line") [],
       RenderNode.node NodeKind.bulletList none
         [RenderNode.node NodeKind.bulletItem (some "point A") [],
          RenderNode.node NodeKind.bulletItem (some "point B") []]]) ∧
    (∀ lines, sectionLeaves (buildLines lines) =
      (lines.filter (fun l => !lineEmpty l)).map lineLeaf) ∧
    (buildSectionNodes ContentKind.slide "Slide title\nBody one\nBody two" =
      [RenderNode.node NodeKind.slide none
        [RenderNode.node NodeKind.paragraph (some "Slide title") [],
         RenderNode.node NodeKind.paragraph (some "Body one\nBody two") []]]) ∧
    (buildSectionNodes ContentKind.text "Para one line A\nPara one line B\n\nPara two" =
      [RenderNode.node NodeKind.paragraph (some "Para one line A\nPara one line B") [],
       RenderNode.node NodeKind.paragraph (some "Para two") []]) ∧
    (∀ body, sectionOrig (buildSectionNodes ContentKind.bullet_list body) =
      (splitLines body).filter (fun l => !lineEmpty l)) ∧
    (∀ body, sectionOrig (buildSectionNodes ContentKind.text body) =
      (splitLines body).filter (fun l => !lineEmpty l)) := by
  refine ⟨rfl, ?_, rfl, rfl, ?_, ?_⟩
  · intro lines
    exact buildAux_leaves lines []
  · intro body
    show sectionOrig (buildAux [] (splitLines body)) = _
    rw [buildAux_orig (splitLines body) (splitLines_no_nl body) []]
    simp
  · intro body
    show sectionOrig (buildTextAux [] [] (splitLines body)) = _
    rw [buildTextAux_orig (splitLines body) (splitLines_no_nl body) [] []
      (by simp) (Or.inl rfl)]
    simp

end DocGen

namespace DocGen

/-- C1 witness. -/
theorem approval_exclusive_check :
    approvedCount (approveArtifact (completeSession EngineState.init 0 "intro") 0) 0 ≤ 1 :=
  (approval_exclusive (completeSession EngineState.init 0 "intro")
    (Reachable.step Reachable.init
      (EngineStep.complete EngineState.init 0 "intro"))).2.1 0 0

/-- C2 witness. -/
theorem versions_gapless_check :
    versionsOf (completeSession EngineState.init 0 "body") 0 =
      versionsOf EngineState.init 0 ++ [latestVersion EngineState.init 0 + 1] :=
  (versions_gapless EngineState.init Reachable.init).2.1 0 "body"

/-- C3 witness. -/
theorem render_tree_mapping_check :
    sectionLeaves (buildLines ["alpha"]) =
      (["alpha"].filter (fun l => !lineEmpty l)).map lineLeaf :=
  render_tree_mapping.2.1 ["alpha"]

/-- C4 witness. -/
theorem feedback_frame_check :
    (submitFeedback EngineState.init 5 FeedbackKind.negative none).artifacts =
      EngineState.init.artifacts ∧
    (submitFeedback EngineState.init 5 FeedbackKind.negative none).inFlight =
      EngineState.init.inFlight :=
  ⟨(feedback_frame EngineState.init 5 FeedbackKind.negative none (by decide)).1,
   (feedback_frame EngineState.init 5 FeedbackKind.negative none (by decide)).2.1⟩

/-- C5 witness. -/
theorem applyFeedback_idempotent_check :
    applyFeedback
      { artifacts := [],
        feedback := [{ id := 0, artifactId := 7, kind := FeedbackKind.negative,
                       suggestion := none, processed := true,
                       responseId := some 3 }],
        inFlight := [], nextArtifactId := 0, nextFeedbackId := 1 } [0] =
      Except.ok
        ({ artifacts := [],
           feedback := [{ id := 0, artifactId := 7,
                          kind := FeedbackKind.negative, suggestion := none,
                          processed := true, responseId := some 3 }],
           inFlight := [], nextArtifactId := 0, nextFeedbackId := 1 },
          ApplyOutcome.existing (some 3)) :=
  (applyFeedback_idempotent
    { artifacts := [],
      feedback := [{ id := 0, artifactId := 7, kind := FeedbackKind.negative,
                     suggestion := none, processed := true,
                     responseId := some 3 }],
      inFlight := [], nextArtifactId := 0, nextFeedbackId := 1 } [0]
    { id := 0, artifactId := 7, kind := FeedbackKind.negative,
      suggestion := none, processed := true, responseId := some 3 } []
    rfl rfl).1

/-- C6 witness. -/
theorem generation_conflict_check :
    startSession EngineState.init 0 =
      Except.ok { EngineState.init with inFlight := [0] } ∧
    startSession { EngineState.init with inFlight := [0] } 0 =
      Except.error EngineError.conflict :=
  (generation_conflict EngineState.init 0).2.2 (by decide)

/-- C7 witness. -/
theorem failed_generation_nondestructive_check :
    (failSession { EngineState.init with inFlight := [0] } 0).artifacts =
      EngineState.init.artifacts :=
  (failed_generation_nondestructive EngineState.init 0
    (fun _ => ProviderOutcome.failure ProviderError.invalidRequest)
    (failSession { EngineState.init with inFlight := [0] } 0) rfl).1

/-- C8 witness. -/
theorem adapter_retry_policy_check :
    generateWithRetry
      (fun i => if i < 2 then ProviderOutcome.failure ProviderError.timeout
        else ProviderOutcome.success "ok") = (ProviderOutcome.success "ok", 3) :=
  adapter_retry_policy.2.2.1
    (fun i => if i < 2 then ProviderOutcome.failure ProviderError.timeout
      else ProviderOutcome.success "ok")
    ProviderError.timeout ProviderError.timeout "ok" rfl rfl rfl rfl rfl

end DocGen

namespace Frontend

/-- C9 witness. -/
theorem interceptor_single_retry_check :
    interceptError
      { accessToken := some "a", refreshToken := some "r", href := none }
      { retryFlag := false } 401 (some "tok") =
      ({ accessToken := some "tok", refreshToken := some "r", href := none },
        InterceptAction.replay { retryFlag := true }, true) :=
  interceptor_single_retry.2.2.1
    { accessToken := some "a", refreshToken := some "r", href := none }
    "r" "tok" rfl

/-- C10 witness. -/
theorem router_auth_gate_check :
    resolve false 2 "/" = RouteResult.page Page.loginPage :=
  router_auth_gate.2.2.1

end Frontend
